import Mathlib

/-!
Verification of the WEO/EMBI dashboard pipeline (`script.py`).

The script downloads the IMF WEO indicator table and an ETF holdings list,
resolves per-indicator values for the current year, 2019 and a 10-year
median window, and serialises the result into an HTML document.  The
definitions below are a shallow embedding of the pure data transformations
of that script: series are lists of rows over an explicit time index,
missing numeric cells are `Option.none` (pandas `NaN`), and fallible pandas
operations return `Option`.
-/

set_option maxHeartbeats 1000000

namespace WEOEmbi

/-- A time-index entry of an indicator series: a pandas `Period` (which has
a `.year` attribute), a plain integer year, or a string label. -/
inductive IdxEntry where
  | period (y : Int)
  | intYear (y : Int)
  | strYear (s : String)
deriving DecidableEq

/-- Result of normalising an index entry: an integer year, or the original
string when it cannot be read as an integer. -/
inductive YearKey where
  | int (y : Int)
  | str (s : String)
deriving DecidableEq

/-- Accumulates decimal digits; fails on the first non-digit character,
mirroring Python `int(str)` rejecting any non-numeric input. -/
def parseNatAux : List Char → Nat → Option Nat
  | [], acc => some acc
  | c :: cs, acc =>
      if c.isDigit then parseNatAux cs (acc * 10 + (c.toNat - 48)) else none

/-- Embeds Python `int` applied to a string: an optional sign followed by
at least one digit yields an integer, anything else raises (`none`). -/
def pyToInt (s : String) : Option Int :=
  match s.data with
  | [] => none
  | '-' :: [] => none
  | '-' :: cs => (parseNatAux cs 0).map (fun n => -(n : Int))
  | '+' :: [] => none
  | '+' :: cs => (parseNatAux cs 0).map (fun n => (n : Int))
  | cs => (parseNatAux cs 0).map (fun n => (n : Int))

/-- Embeds `extract_year_from_index` (script.py lines 161-170): `Period`
objects yield their `.year`; otherwise `int(idx)` is attempted and on
failure the entry is kept as a string. -/
def extract_year_from_index : IdxEntry → YearKey
  | .period y => .int y
  | .intYear y => .int y
  | .strYear s =>
      match pyToInt s with
      | some n => .int n
      | none => .str s

/-- A country-by-year indicator table as handed to `get_year_data`:
`rows` are indexed by `index` (years) and each row holds one optional
numeric cell per entry of `countries`. -/
structure Series where
  index : List IdxEntry
  countries : List String
  rows : List (List (Option ℚ))
deriving DecidableEq

/-- The sort key used by pandas `Series.sort_values()`: values ascending
with missing values (`NaN`) placed last. -/
def toTop (v : Option ℚ) : WithTop ℚ :=
  v.elim ⊤ (fun q => (q : WithTop ℚ))

/-- Comparison underlying `sort_values()`: by value, absent last. -/
def valLe (p q : String × Option ℚ) : Prop :=
  toTop p.2 ≤ toTop q.2

instance : DecidableRel valLe :=
  fun p q => inferInstanceAs (Decidable (toTop p.2 ≤ toTop q.2))

instance : IsTotal (String × Option ℚ) valLe :=
  ⟨fun a b => le_total (toTop a.2) (toTop b.2)⟩

instance : IsTrans (String × Option ℚ) valLe :=
  ⟨fun _ _ _ h h2 => le_trans h h2⟩

/-- Embeds pandas `Series.sort_values()` on a country-labelled row:
reorders the (country, value) pairs so that values are ascending and
missing values come last. -/
def sortValues (l : List (String × Option ℚ)) : List (String × Option ℚ) :=
  l.insertionSort valLe

/-- The `actual_year_used` half of the return value of `get_year_data`: a
numeric year, or the string sentinel `"last_available"`. -/
inductive YearUsed where
  | year (y : Int)
  | lastAvailable
deriving DecidableEq

/-- The pair returned by `get_year_data`. -/
structure YearResult where
  values : List (String × Option ℚ)
  used : YearUsed
deriving DecidableEq

/-- `index_years` (script.py line 176): the index normalised entrywise. -/
def indexYears (s : Series) : List YearKey :=
  s.index.map extract_year_from_index

/-- `numeric_years` (script.py line 184): the normalised entries that are
integers. -/
def numericYears (s : Series) : List Int :=
  (indexYears s).filterMap (fun k => match k with | .int y => some y | .str _ => none)

/-- One comparison step of Python `min(xs, key=lambda x: abs(x - target))`:
the best-so-far is replaced only on a strictly smaller key. -/
def minStep (target b y : Int) : Int :=
  if (y - target).natAbs < (b - target).natAbs then y else b

/-- Embeds Python `min(xs, key=lambda x: abs(x - target))`: scans left to
right keeping the current best, replacing it only on a strictly smaller
key, so the first minimiser wins. -/
def pyMinAbs (target : Int) : List Int → Option Int
  | [] => none
  | x :: xs => some (xs.foldl (minStep target) x)

/-- `series_data.iloc[pos]` row access. -/
def rowAt (s : Series) (pos : Nat) : List (Option ℚ) :=
  s.rows.getD pos []

/-- Embeds `get_year_data` (script.py lines 173-191).  Exact-year branch:
position found by `list.index` (first occurrence).  Closest-year branch:
Python `min` over the integer years keyed by absolute distance, then again
`list.index`.  Fallback: `iloc[-1]`, which raises (here `none`) on an
empty frame.  Every branch returns the row passed through
`sort_values()`. -/
def get_year_data (s : Series) (target : Int) : Option YearResult :=
  let iy := indexYears s
  if YearKey.int target ∈ iy then
    some ⟨sortValues (s.countries.zip (rowAt s (iy.indexOf (.int target)))), .year target⟩
  else
    match pyMinAbs target (numericYears s) with
    | some closest =>
        some ⟨sortValues (s.countries.zip (rowAt s (iy.indexOf (.int closest)))), .year closest⟩
    | none =>
        match s.rows.getLast? with
        | some row => some ⟨sortValues (s.countries.zip row), .lastAvailable⟩
        | none => none

/-- The integer year of an index entry, when it has one (`Period` and
plain-integer entries; string labels have none). -/
def entryYearInt : IdxEntry → Option Int
  | .period y => some y
  | .intYear y => some y
  | .strYear _ => none

/-- Label-slice membership for `series_data.loc[Period(lo):Period(hi)]`:
an entry is kept when its year lies between the bounds, inclusive. -/
def inWindow (e : IdxEntry) (lo hi : Int) : Bool :=
  match entryYearInt e with
  | some y => decide (lo ≤ y ∧ y ≤ hi)
  | none => false

/-- The rows of `series_data.loc[Period(lo):Period(hi)]`. -/
def windowRows (s : Series) (lo hi : Int) : List (List (Option ℚ)) :=
  ((s.index.zip s.rows).filter (fun p => inWindow p.1 lo hi)).map Prod.snd

/-- The defined (non-`NaN`) cells of column `j` over the given rows. -/
def colObs (rows : List (List (Option ℚ))) (j : Nat) : List ℚ :=
  rows.filterMap (fun row => row.getD j none)

/-- Embeds pandas `median()` (skipna): `NaN` cells were already dropped by
`colObs`; an empty sample yields `NaN`, an odd-sized sorted sample its
middle element, an even-sized one the mean of the two middle elements. -/
def pandasMedian (vs : List ℚ) : Option ℚ :=
  if vs.isEmpty then none
  else
    let s := vs.insertionSort (fun a b => a ≤ b)
    let n := s.length
    some (if n % 2 = 1 then s.getD (n / 2) 0 else (s.getD (n / 2 - 1) 0 + s.getD (n / 2) 0) / 2)

/-- Embeds script.py line 207:
`series_data.loc[Period(cy-9):Period(cy)].median().sort_values()` —
slice the trailing ten years, take the per-country median of the defined
cells, and sort the resulting country-labelled values. -/
def median_10yr (s : Series) (currentYear : Int) : List (String × Option ℚ) :=
  let rows := windowRows s (currentYear - 9) currentYear
  sortValues (s.countries.enum.map (fun jc => (jc.2, pandasMedian (colObs rows jc.1))))

/-- The observations of country column `j` whose index entry has an
integer year inside the inclusive window `[Y-9, Y]`, read off directly
from the raw series. -/
def inWindowObs (s : Series) (currentYear : Int) (j : Nat) : List ℚ :=
  (s.index.zip s.rows).filterMap (fun p =>
    match entryYearInt p.1 with
    | some y =>
        if currentYear - 9 ≤ y ∧ y ≤ currentYear then p.2.getD j none else none
    | none => none)

/-- The static free-text-name → ISO-code table (script.py lines 62-74). -/
def country_mapping : List (String × String) :=
  [("Angola", "AGO"), ("Argentina", "ARG"), ("Bahrain", "BHR"), ("Brazil", "BRA"),
   ("Bulgaria", "BGR"), ("Chile", "CHL"), ("China", "CHN"), ("Colombia", "COL"),
   ("Costa Rica", "CRI"), ("Cote D\x27Ivoire (Ivory Coast)", "CIV"), ("Dominican Republic", "DOM"),
   ("Ecuador", "ECU"), ("Egypt", "EGY"), ("Ghana", "GHA"), ("Guatemala", "GTM"),
   ("Hungary", "HUN"), ("Jamaica", "JAM"), ("Jordan", "JOR"), ("Kazakhstan", "KAZ"),
   ("Kenya", "KEN"), ("Latvia", "LVA"), ("Malaysia", "MYS"), ("Mexico", "MEX"),
   ("Morocco", "MAR"), ("Nigeria", "NGA"), ("Oman", "OMN"), ("Pakistan", "PAK"),
   ("Panama", "PAN"), ("Peru", "PER"), ("Philippines", "PHL"), ("Poland", "POL"),
   ("Romania", "ROU"), ("Saudi Arabia", "SAU"), ("Serbia", "SRB"), ("South Africa", "ZAF"),
   ("Sri Lanka", "LKA"), ("Turkey", "TUR"), ("Ukraine", "UKR"), ("United Arab Emirates", "ARE"),
   ("Uruguay", "URY")]

/-- Embeds script.py line 77:
`[country_mapping.get(c, c) for c in countries if c in country_mapping]`. -/
def embi_countries (countries : List String) : List String :=
  (countries.filter (fun c => (country_mapping.lookup c).isSome)).map
    (fun c => (country_mapping.lookup c).getD c)

/-- One snapshot view: country code → optional value. -/
abbrev View := List (String × Option ℚ)

/-- The three per-indicator views (current year, 10yr median, 2019). -/
abbrev Triple := View × View × View

/-- Embeds the column selection `w.getc(var)[embi_countries]` (script.py
line 198): reindex the frame columns to the holdings-derived code list;
a requested code missing from the frame raises `KeyError` (`none`). -/
def selectCountries (s : Series) (embi : List String) : Option Series :=
  if embi.all (fun c => decide (c ∈ s.countries)) then
    some ⟨s.index, embi,
      s.rows.map (fun row => embi.map (fun c => row.getD (s.countries.indexOf c) none))⟩
  else none

/-- The all-`NaN` substitute series built when the 2019 lookup raises
(script.py lines 217-220): one absent value per holdings country, passed
through `sort_values()`. -/
def fallback2019 (embi : List String) : View :=
  sortValues (embi.map (fun c => (c, none)))

/-- Embeds one iteration of the collection loop (script.py lines 195-228)
for an already-fetched indicator frame: restrict to the holdings
countries, resolve the current year, the 10-year median and 2019 (with
the all-`NaN` fallback); any uncaught failure (`none`) makes the outer
`except` record the indicator as absent in all three views. -/
def collectVar (s : Series) (embi : List String) (currentYear : Int) : Option Triple :=
  match selectCountries s embi with
  | none => none
  | some sd =>
      match get_year_data sd currentYear with
      | none => none
      | some cur =>
          let med := median_10yr sd currentYear
          let d2019 :=
            match get_year_data sd 2019 with
            | some r => r.values
            | none => fallback2019 embi
          some (cur.values, med, d2019)

/-- The full collection loop over the indicator list: `fetch` models
`w.getc(var)` (raising = `none`); each indicator is mapped to `some`
triple or to `None` in all three dictionaries. -/
def collect_loop (vars : List String) (fetch : String → Option Series)
    (embi : List String) (currentYear : Int) : List (String × Option Triple) :=
  vars.map (fun v => (v, (fetch v).bind (fun s => collectVar s embi currentYear)))

/-- Embeds `clean_current_data` (script.py line 232): drop the `None`
entries, keeping the current-year view of each surviving indicator. -/
def clean_current_data (res : List (String × Option Triple)) : List (String × View) :=
  res.filterMap (fun p => match p.2 with | some t => some (p.1, t.1) | none => none)

/-- Embeds `clean_median_data` (script.py line 233). -/
def clean_median_data (res : List (String × Option Triple)) : List (String × View) :=
  res.filterMap (fun p => match p.2 with | some t => some (p.1, t.2.1) | none => none)

/-- Embeds `clean_2019_data` (script.py line 234). -/
def clean_2019_data (res : List (String × Option Triple)) : List (String × View) :=
  res.filterMap (fun p => match p.2 with | some t => some (p.1, t.2.2) | none => none)

/-- The display-order list (script.py lines 290-303). -/
def logical_order : List String :=
  ["GDP (US Dollars)",
   "Population",
   "Real GDP growth (%)",
   "Inflation, consumer prices (%)",
   "National savings (% of GDP)",
   "Total investment (% of GDP)",
   "Current account balance (% of GDP)",
   "General government revenue (% of GDP)",
   "General government total expenditure (% of GDP)",
   "General government net lending/borrowing (% of GDP)",
   "General government net borrowing (% of GDP)",
   "General government gross debt (% of GDP)"]

/-- The period labels of the combined-table columns, from the suffixes
added at script.py lines 248-250 and split back at lines 257-267: the
current year rendered as a string, `10yr_Median` and `2019`. -/
def period_labels (currentYear : Int) : List String :=
  [toString currentYear, "10yr_Median", "2019"]

/-- Round half to even at one decimal digit, as numpy/pandas
`DataFrame.round(1)` does. -/
def round1 (q : ℚ) : ℚ :=
  let x : ℚ := q * 10
  let f : Int := ⌊x⌋
  let n : Int :=
    if x - f < 1 / 2 then f
    else if x - f > 1 / 2 then f + 1
    else if f % 2 = 0 then f else f + 1
  (n : ℚ) / 10

/-- Period-label → optional value, for one indicator of one country. -/
abbrev Cells := List (String × Option ℚ)

/-- The combined-table row of one country after `unstack()`: indicator →
its cells over the period labels. -/
abbrev CountryRow := List (String × Cells)

/-- Embeds `get_country_df` (script.py lines 279-288): round the unstacked
country row and select the period columns with the LITERAL labels `2025`,
`2019`, `10yr_Median`; any of those labels missing from the
period labels of the table (which are `period_labels currentYear`) raises
`KeyError` (`none`).  Then reorder indicators by `sort_order`, appending
the ones it does not mention. -/
def get_country_df (currentYear : Int) (row : CountryRow) (sortOrder : List String) :
    Option CountryRow :=
  if ["2025", "2019", "10yr_Median"].all (fun p => decide (p ∈ period_labels currentYear)) then
    let avail := row.map Prod.fst
    let finalOrder := (sortOrder.filter (fun i => decide (i ∈ avail))) ++
      (avail.filter (fun i => decide (i ∉ sortOrder)))
    some (finalOrder.filterMap (fun i => (row.lookup i).map (fun cells =>
      (i, ["2025", "2019", "10yr_Median"].map
        (fun p => (p, ((cells.lookup p).getD none).map round1))))))
  else none

/-- Embeds the per-country loop (script.py lines 309-315): a country whose
projection raises is skipped, the others keep their projected frame. -/
def country_dfs_loop (currentYear : Int) (countryRows : List (String × CountryRow)) :
    List (String × CountryRow) :=
  countryRows.filterMap (fun p =>
    (get_country_df currentYear p.2 logical_order).map (fun d => (p.1, d)))

/-- Embeds the serialisation loop (script.py lines 320-331): every country
frame becomes a record keyed by the LITERAL period names `2025`,
`2019` and `10yr_Median`. -/
def country_metrics_json (dfs : List (String × CountryRow)) :
    List (String × List (String × (Option ℚ × Option ℚ × Option ℚ))) :=
  dfs.map (fun p => (p.1, p.2.map (fun ic =>
    (ic.1, ((ic.2.lookup "2025").getD none,
            (ic.2.lookup "2019").getD none,
            (ic.2.lookup "10yr_Median").getD none)))))

/-- A two-country sample series used by the concrete witnesses below. -/
def sampleSeries : Series :=
  ⟨[.period 2016, .period 2019, .period 2025], ["BRA", "CHN"],
   [[some 1, some 2], [some 3, some 4], [some 5, some 6]]⟩

/-- A sample `fetch` with exactly one available indicator. -/
def sampleFetch : String → Option Series :=
  fun v => if v = "NGDPD" then some sampleSeries else none

/-- The unstacked row of one country as assembled for target year `cy`. -/
def sample_cells (cy : Int) : Cells :=
  [(toString cy, some 5), ("10yr_Median", some 4), ("2019", some 3)]

/-- A one-indicator country row as assembled for target year `cy`. -/
def sample_country_row (cy : Int) : CountryRow :=
  [("Population", sample_cells cy)]

/-- Lexicographic comparison of character lists, the usual ascending
string order. -/
def charListLe : List Char → List Char → Bool
  | [], _ => true
  | _ :: _, [] => false
  | a :: as, b :: bs => if a < b then true else if b < a then false else charListLe as bs

/-- Ascending country-code order. -/
def codeLe (a b : String) : Prop := charListLe a.data b.data = true

instance : DecidableRel codeLe :=
  fun a b => inferInstanceAs (Decidable (charListLe a.data b.data = true))

/-! ### Helper lemmas -/

theorem sortValues_perm (l : List (String × Option ℚ)) : (sortValues l).Perm l :=
  List.perm_insertionSort valLe l

theorem mem_sortValues {l : List (String × Option ℚ)} {p : String × Option ℚ} :
    p ∈ sortValues l ↔ p ∈ l :=
  List.mem_insertionSort valLe

theorem sortValues_sorted (l : List (String × Option ℚ)) :
    List.Sorted valLe (sortValues l) :=
  List.sorted_insertionSort valLe l

theorem sortValues_keys (l : List (String × Option ℚ)) :
    ((sortValues l).map Prod.fst).Perm (l.map Prod.fst) :=
  (sortValues_perm l).map Prod.fst

theorem minStep_fold_spec (target : Int) (xs : List Int) : ∀ acc : Int,
    (xs.foldl (minStep target) acc = acc ∨ xs.foldl (minStep target) acc ∈ xs) ∧
    (xs.foldl (minStep target) acc - target).natAbs ≤ (acc - target).natAbs ∧
    ∀ z ∈ xs, (xs.foldl (minStep target) acc - target).natAbs ≤ (z - target).natAbs := by
  induction xs with
  | nil =>
      intro acc
      refine ⟨Or.inl rfl, le_refl _, ?_⟩
      intro z hz
      cases hz
  | cons y ys ih =>
      intro acc
      simp only [List.foldl_cons]
      obtain ⟨hmem, hle, hall⟩ := ih (minStep target acc y)
      have hstep_le_acc : (minStep target acc y - target).natAbs ≤ (acc - target).natAbs := by
        unfold minStep
        by_cases hc : (y - target).natAbs < (acc - target).natAbs
        · rw [if_pos hc]; exact le_of_lt hc
        · rw [if_neg hc]
      have hstep_le_y : (minStep target acc y - target).natAbs ≤ (y - target).natAbs := by
        unfold minStep
        by_cases hc : (y - target).natAbs < (acc - target).natAbs
        · rw [if_pos hc]
        · rw [if_neg hc]; exact Nat.not_lt.mp hc
      refine ⟨?_, le_trans hle hstep_le_acc, ?_⟩
      · rcases hmem with h | h
        · rw [h]
          unfold minStep
          by_cases hc : (y - target).natAbs < (acc - target).natAbs
          · rw [if_pos hc]; exact Or.inr (List.mem_cons_self y ys)
          · rw [if_neg hc]; exact Or.inl rfl
        · exact Or.inr (List.mem_cons_of_mem y h)
      · intro z hz
        rcases List.mem_cons.mp hz with rfl | hz2
        · exact le_trans hle hstep_le_y
        · exact hall z hz2

theorem pyMinAbs_spec (target : Int) (xs : List Int) (hx : xs ≠ []) :
    ∃ m, pyMinAbs target xs = some m ∧ m ∈ xs ∧
      ∀ z ∈ xs, (m - target).natAbs ≤ (z - target).natAbs := by
  cases xs with
  | nil => exact absurd rfl hx
  | cons x ys =>
      obtain ⟨hmem, hle, hall⟩ := minStep_fold_spec target ys x
      refine ⟨ys.foldl (minStep target) x, rfl, ?_, ?_⟩
      · rcases hmem with h | h
        · rw [h]; exact List.mem_cons_self x ys
        · exact List.mem_cons_of_mem x h
      · intro z hz
        rcases List.mem_cons.mp hz with rfl | hz2
        · exact hle
        · exact hall z hz2

theorem int_mem_indexYears {s : Series} {y : Int} (h : y ∈ numericYears s) :
    YearKey.int y ∈ indexYears s := by
  unfold numericYears at h
  obtain ⟨k, hk, he⟩ := List.mem_filterMap.mp h
  cases k with
  | int z =>
      simp only [Option.some.injEq] at he
      rw [← he]
      exact hk
  | str t => cases he

theorem indexOf_first {α : Type} [DecidableEq α] {l : List α} {a : α} {k : Nat}
    (hk : k < List.indexOf a l) (hkl : k < l.length) : l[k] ≠ a := by
  intro he
  have h := @List.not_of_lt_findIdx _ (fun x => x == a) l k (by simpa [List.indexOf] using hk)
  rw [he] at h
  simp at h

/-! ### Claims -/

/-- C1: the claim says the first period key of every serialised triple is
the current target year of the run at generation time, for every value of
the current year.  The code instead hardcodes the literal `2025` both in
the column selection of `get_country_df` (script.py line 280) and in the
JSON keys (line 327): with current year 2026 the period labels of the
combined table are `2026`, `10yr_Median`, `2019`, so every country projection raises
`KeyError`, every country is skipped, and the emitted JSON is empty, while
the same projection succeeds when the current year is 2025. -/
theorem c1_projection_hardcodes_2025 :
    (∀ row : CountryRow, get_country_df 2026 row logical_order = none) ∧
    (get_country_df 2025 (sample_country_row 2025) logical_order).isSome = true ∧
    country_metrics_json (country_dfs_loop 2026 [("BRA", sample_country_row 2026)]) = [] := by
  refine ⟨fun row => rfl, by decide, rfl⟩

/-- C2 (counterexample): the claim that `get_year_data` returns its
per-country values ordered by ascending country code fails on a series
whose values are not aligned with the code order: the pair list comes back
ordered `[BBB, AAA]`. -/
theorem c2_not_sorted_by_country_code :
    ¬ List.Sorted (fun p q : String × Option ℚ => codeLe p.1 q.1)
      ((get_year_data ⟨[.period 2025], ["AAA", "BBB"], [[some 5, some 1]]⟩ 2025).elim []
        YearResult.values) := by decide

/-- C2 (amended): in every branch, `get_year_data` returns the
per-country mapping sorted ascending by value with absent values placed
last (`sort_values()`), not sorted by country code. -/
theorem get_year_data_values_sorted_by_value (s : Series) (target : Int) (r : YearResult)
    (h : get_year_data s target = some r) : List.Sorted valLe r.values := by
  simp only [get_year_data] at h
  split at h
  · have := Option.some.inj h
    subst this
    exact sortValues_sorted _
  · split at h
    · have := Option.some.inj h
      subst this
      exact sortValues_sorted _
    · split at h
      · have := Option.some.inj h
        subst this
        exact sortValues_sorted _
      · exact absurd h (by simp)

/-- Witness for the amended C2 at a concrete series. -/
theorem get_year_data_values_sorted_by_value_witness :
    List.Sorted valLe (YearResult.mk [("BBB", some 1), ("AAA", some 5)] (.year 2025)).values :=
  get_year_data_values_sorted_by_value ⟨[.period 2025], ["AAA", "BBB"], [[some 5, some 1]]⟩ 2025
    ⟨[("BBB", some 1), ("AAA", some 5)], .year 2025⟩ (by decide)

/-- C3: when the target year occurs in the normalised time index,
`get_year_data` succeeds, reports `actual_year_used = target_year`, and
returns (up to the `sort_values()` reordering) exactly the values stored
at a position whose index entry normalises to that year. -/
theorem get_year_data_exact (s : Series) (target : Int)
    (h : YearKey.int target ∈ indexYears s) :
    ∃ r, get_year_data s target = some r ∧ r.used = .year target ∧
      ∃ i, ∃ hi : i < s.index.length,
        extract_year_from_index (s.index.getD i (.strYear "")) = .int target ∧
        r.values.Perm (s.countries.zip (s.rows.getD i [])) := by
  refine ⟨⟨sortValues (s.countries.zip (rowAt s ((indexYears s).indexOf (.int target)))),
    .year target⟩, ?_, rfl, ?_⟩
  · simp only [get_year_data]
    rw [if_pos h]
  · have hlt : (indexYears s).indexOf (.int target) < (indexYears s).length :=
      List.indexOf_lt_length.mpr h
    have hlen : (indexYears s).length = s.index.length := List.length_map _ _
    have hi : (indexYears s).indexOf (.int target) < s.index.length := hlen ▸ hlt
    refine ⟨(indexYears s).indexOf (.int target), hi, ?_, ?_⟩
    · have hget := List.getElem_indexOf hlt
      rw [List.getD_eq_getElem _ _ hi]
      unfold indexYears at hget
      rw [List.getElem_map] at hget
      exact hget
    · exact sortValues_perm _

/-- Witness for C3: the sample series holds 2025 exactly. -/
theorem get_year_data_exact_witness :
    ∃ r, get_year_data sampleSeries 2025 = some r ∧ r.used = .year 2025 ∧
      ∃ i, ∃ hi : i < sampleSeries.index.length,
        extract_year_from_index (sampleSeries.index.getD i (.strYear "")) = .int 2025 ∧
        r.values.Perm (sampleSeries.countries.zip (sampleSeries.rows.getD i [])) :=
  get_year_data_exact sampleSeries 2025 (by decide)

/-- C4: when the target year is absent from the normalised index but some
entry normalises to an integer year, `get_year_data` succeeds, reports a
year of minimum absolute distance to the target, and returns (up to the
`sort_values()` reordering) the values stored at a position normalising to
that year. -/
theorem get_year_data_closest (s : Series) (target : Int)
    (hno : YearKey.int target ∉ indexYears s) (hnum : numericYears s ≠ []) :
    ∃ r y, get_year_data s target = some r ∧ r.used = .year y ∧ y ∈ numericYears s ∧
      (∀ z ∈ numericYears s, (y - target).natAbs ≤ (z - target).natAbs) ∧
      ∃ i, ∃ hi : i < s.index.length,
        extract_year_from_index (s.index.getD i (.strYear "")) = .int y ∧
        r.values.Perm (s.countries.zip (s.rows.getD i [])) := by
  obtain ⟨m, hm, hmem, hall⟩ := pyMinAbs_spec target (numericYears s) hnum
  have hmy : YearKey.int m ∈ indexYears s := int_mem_indexYears hmem
  refine ⟨⟨sortValues (s.countries.zip (rowAt s ((indexYears s).indexOf (.int m)))),
    .year m⟩, m, ?_, rfl, hmem, hall, ?_⟩
  · simp only [get_year_data]
    rw [if_neg hno, hm]
  · have hlt : (indexYears s).indexOf (.int m) < (indexYears s).length :=
      List.indexOf_lt_length.mpr hmy
    have hlen : (indexYears s).length = s.index.length := List.length_map _ _
    have hi : (indexYears s).indexOf (.int m) < s.index.length := hlen ▸ hlt
    refine ⟨(indexYears s).indexOf (.int m), hi, ?_, ?_⟩
    · have hget := List.getElem_indexOf hlt
      rw [List.getD_eq_getElem _ _ hi]
      unfold indexYears at hget
      rw [List.getElem_map] at hget
      exact hget
    · exact sortValues_perm _

/-- Witness for C4, the scenario given in the spec: target 2030 over data
spanning 2015-2028 resolves to 2028. -/
theorem get_year_data_closest_witness :
    ∃ r y,
      get_year_data ⟨[.period 2015, .period 2028], ["AAA"], [[some 1], [some 5]]⟩ 2030 =
        some r ∧
      r.used = .year y ∧
      y ∈ numericYears ⟨[.period 2015, .period 2028], ["AAA"], [[some 1], [some 5]]⟩ ∧
      (∀ z ∈ numericYears ⟨[.period 2015, .period 2028], ["AAA"], [[some 1], [some 5]]⟩,
        (y - 2030).natAbs ≤ (z - 2030).natAbs) ∧
      ∃ i, ∃ hi :
        i < (Series.mk [.period 2015, .period 2028] ["AAA"] [[some 1], [some 5]]).index.length,
        extract_year_from_index
          ((Series.mk [.period 2015, .period 2028] ["AAA"] [[some 1], [some 5]]).index.getD i
            (.strYear "")) = .int y ∧
        r.values.Perm
          ((Series.mk [.period 2015, .period 2028] ["AAA"] [[some 1], [some 5]]).countries.zip
            ((Series.mk [.period 2015, .period 2028] ["AAA"] [[some 1], [some 5]]).rows.getD i
              [])) :=
  get_year_data_closest ⟨[.period 2015, .period 2028], ["AAA"], [[some 1], [some 5]]⟩ 2030
    (by decide) (by decide)

/-- C10: whenever `get_year_data` resolves to a numeric year `w` (exact or
closest branch), the row it returns is the one at the FIRST index position
whose entry normalises to `w`: every earlier position normalises to
something else.  In particular duplicate normalised years are resolved
deterministically in favour of the first position, as `list.index` does. -/
theorem get_year_data_first_occurrence (s : Series) (target : Int) (r : YearResult) (w : Int)
    (h : get_year_data s target = some r) (hw : r.used = .year w) :
    ∃ p, ∃ hp : p < s.index.length,
      extract_year_from_index (s.index.getD p (.strYear "")) = .int w ∧
      (∀ k, ∀ hk : k < p,
        extract_year_from_index (s.index.getD k (.strYear "")) ≠ .int w) ∧
      r.values.Perm (s.countries.zip (s.rows.getD p [])) := by
  have hlen : (indexYears s).length = s.index.length := List.length_map _ _
  simp only [get_year_data] at h
  split at h
  case isTrue hc =>
    have hr := Option.some.inj h
    subst hr
    simp only at hw
    have hwt : target = w := by
      injection hw
    subst hwt
    have hlt : (indexYears s).indexOf (.int target) < (indexYears s).length :=
      List.indexOf_lt_length.mpr hc
    have hp : (indexYears s).indexOf (.int target) < s.index.length := hlen ▸ hlt
    refine ⟨(indexYears s).indexOf (.int target), hp, ?_, ?_, ?_⟩
    · have hget := List.getElem_indexOf hlt
      rw [List.getD_eq_getElem _ _ hp]
      unfold indexYears at hget
      rw [List.getElem_map] at hget
      exact hget
    · intro k hk
      have hkl : k < s.index.length := lt_trans hk hp
      have hkl2 : k < (indexYears s).length := hlen ▸ hkl
      have hne : (indexYears s)[k] ≠ YearKey.int target := indexOf_first hk hkl2
      rw [List.getD_eq_getElem _ _ hkl]
      intro he
      apply hne
      unfold indexYears
      rw [List.getElem_map]
      exact he
    · exact sortValues_perm _
  case isFalse hc =>
    split at h
    case h_1 m hm =>
      have hr := Option.some.inj h
      subst hr
      simp only at hw
      have hwt : m = w := by
        injection hw
      subst hwt
      have hnum : numericYears s ≠ [] := by
        intro hz
        rw [hz] at hm
        cases hm
      obtain ⟨m2, hm2, hmem, _⟩ := pyMinAbs_spec target (numericYears s) hnum
      rw [hm] at hm2
      have hmm : m = m2 := Option.some.inj hm2
      subst hmm
      have hmy : YearKey.int m ∈ indexYears s := int_mem_indexYears hmem
      have hlt : (indexYears s).indexOf (.int m) < (indexYears s).length :=
        List.indexOf_lt_length.mpr hmy
      have hp : (indexYears s).indexOf (.int m) < s.index.length := hlen ▸ hlt
      refine ⟨(indexYears s).indexOf (.int m), hp, ?_, ?_, ?_⟩
      · have hget := List.getElem_indexOf hlt
        rw [List.getD_eq_getElem _ _ hp]
        unfold indexYears at hget
        rw [List.getElem_map] at hget
        exact hget
      · intro k hk
        have hkl : k < s.index.length := lt_trans hk hp
        have hkl2 : k < (indexYears s).length := hlen ▸ hkl
        have hne : (indexYears s)[k] ≠ YearKey.int m := indexOf_first hk hkl2
        rw [List.getD_eq_getElem _ _ hkl]
        intro he
        apply hne
        unfold indexYears
        rw [List.getElem_map]
        exact he
      · exact sortValues_perm _
    case h_2 =>
      split at h
      case h_1 row hrow =>
        have hr := Option.some.inj h
        subst hr
        simp only at hw
        cases hw
      case h_2 => cases h

/-- Witness for C10: an index holding the year 2025 twice (once as a
plain integer, once as a `Period`) resolves to the first position. -/
theorem get_year_data_first_occurrence_witness :
    ∃ p, ∃ hp :
      p < (Series.mk [.intYear 2025, .period 2025] ["AAA"] [[some 7], [some 9]]).index.length,
      extract_year_from_index
        ((Series.mk [.intYear 2025, .period 2025] ["AAA"] [[some 7], [some 9]]).index.getD p
          (.strYear "")) = .int 2025 ∧
      (∀ k, ∀ hk : k < p,
        extract_year_from_index
          ((Series.mk [.intYear 2025, .period 2025] ["AAA"] [[some 7], [some 9]]).index.getD k
            (.strYear "")) ≠ .int 2025) ∧
      (YearResult.mk [("AAA", some 7)] (.year 2025)).values.Perm
        ((Series.mk [.intYear 2025, .period 2025] ["AAA"] [[some 7], [some 9]]).countries.zip
          ((Series.mk [.intYear 2025, .period 2025] ["AAA"] [[some 7], [some 9]]).rows.getD p
            [])) :=
  get_year_data_first_occurrence ⟨[.intYear 2025, .period 2025], ["AAA"], [[some 7], [some 9]]⟩
    2025 ⟨[("AAA", some 7)], .year 2025⟩ 2025 (by decide) rfl

theorem inWindowObs_eq (s : Series) (Y : Int) (j : Nat) :
    inWindowObs s Y j = colObs (windowRows s (Y - 9) Y) j := by
  unfold inWindowObs windowRows colObs
  rw [List.filterMap_map, List.filterMap_filter]
  apply List.filterMap_congr
  intro p _
  cases he : entryYearInt p.1 with
  | some y =>
      simp only [Function.comp, inWindow, he]
      by_cases hc : Y - 9 ≤ y ∧ y ≤ Y
      · simp [hc]
      · simp [hc]
  | none =>
      simp only [Function.comp, inWindow, he]
      simp

/-- C5: for every country position `j`, the 10-year-median view holds the
median of exactly the observations whose year lies in the inclusive
window `[Y-9, Y]`, and a country with zero in-window observations is
mapped to an absent value, never to zero and never to an error. -/
theorem median_10yr_window_median (s : Series) (Y : Int) (j : Nat) (v : Option ℚ)
    (hnd : s.countries.Nodup) (hj : j < s.countries.length) :
    ((s.countries.getD j "", v) ∈ median_10yr s Y ↔
      v = pandasMedian (inWindowObs s Y j)) ∧
    (inWindowObs s Y j = [] → pandasMedian (inWindowObs s Y j) = none) := by
  have hgd : s.countries.getD j "" = s.countries[j] := List.getD_eq_getElem _ _ hj
  constructor
  · simp only [median_10yr]
    rw [mem_sortValues]
    constructor
    · intro hmem
      obtain ⟨jc, hjc, heq⟩ := List.mem_map.mp hmem
      obtain ⟨i, c⟩ := jc
      rw [List.mk_mem_enum_iff_getElem?] at hjc
      simp only [Prod.mk.injEq] at heq
      obtain ⟨h1, h2⟩ := heq
      have hi : i < s.countries.length := by
        by_contra hni
        rw [List.getElem?_eq_none (le_of_not_lt hni)] at hjc
        cases hjc
      rw [List.getElem?_eq_getElem hi] at hjc
      have hic := Option.some.inj hjc
      have hij : i = j := by
        apply (hnd.getElem_inj_iff).mp
        rw [hic, h1, hgd]
      subst hij
      rw [← h2, inWindowObs_eq]
    · intro hv
      subst hv
      apply List.mem_map.mpr
      refine ⟨(j, s.countries[j]), ?_, ?_⟩
      · rw [List.mk_mem_enum_iff_getElem?]
        exact List.getElem?_eq_getElem hj
      · rw [inWindowObs_eq, hgd]
  · intro h0
    rw [h0]
    rfl

/-- Witness for C5: in the sample series the CHN column has the three
in-window observations 2, 4 and 6, whose median is 4. -/
theorem median_10yr_window_median_witness :
    (((sampleSeries.countries.getD 1 ""), (some 4 : Option ℚ)) ∈ median_10yr sampleSeries 2025 ↔
      some 4 = pandasMedian (inWindowObs sampleSeries 2025 1)) ∧
    (inWindowObs sampleSeries 2025 1 = [] → pandasMedian (inWindowObs sampleSeries 2025 1) = none) :=
  median_10yr_window_median sampleSeries 2025 1 (some 4) (by decide) (by decide)

theorem zip_keys_of_length (cs : List String) (row : List (Option ℚ))
    (h : cs.length ≤ row.length) :
    ((sortValues (cs.zip row)).map Prod.fst).Perm cs := by
  refine (sortValues_keys _).trans ?_
  rw [List.map_fst_zip _ _ h]

theorem median_10yr_keys (s : Series) (cy : Int) :
    ((median_10yr s cy).map Prod.fst).Perm s.countries := by
  simp only [median_10yr]
  refine (sortValues_keys _).trans ?_
  rw [List.map_map]
  have he : s.countries.enum.map
      (Prod.fst ∘ fun jc : Nat × String =>
        (jc.2, pandasMedian (colObs (windowRows s (cy - 9) cy) jc.1))) =
      s.countries.enum.map Prod.snd := rfl
  rw [he, List.enum_eq_zip_range, List.map_snd_zip]
  rw [List.length_range]

theorem fallback2019_keys (embi : List String) :
    ((fallback2019 embi).map Prod.fst).Perm embi := by
  unfold fallback2019
  refine (sortValues_keys _).trans ?_
  rw [List.map_map]
  have he : (embi.map (Prod.fst ∘ fun c => (c, (none : Option ℚ)))) = embi.map id := rfl
  rw [he, List.map_id]

theorem get_year_data_values_shape (s : Series) (target : Int) (r : YearResult)
    (hlen : s.rows.length = s.index.length)
    (h : get_year_data s target = some r) :
    ∃ row ∈ s.rows, r.values = sortValues (s.countries.zip row) := by
  have hlen2 : (indexYears s).length = s.index.length := List.length_map _ _
  simp only [get_year_data] at h
  split at h
  case isTrue hc =>
    have hr := Option.some.inj h
    subst hr
    have hlt : (indexYears s).indexOf (.int target) < (indexYears s).length :=
      List.indexOf_lt_length.mpr hc
    have hpos : (indexYears s).indexOf (.int target) < s.rows.length := by
      rw [hlen, ← hlen2]
      exact hlt
    refine ⟨rowAt s ((indexYears s).indexOf (.int target)), ?_, rfl⟩
    unfold rowAt
    rw [List.getD_eq_getElem _ _ hpos]
    exact List.getElem_mem hpos
  case isFalse hc =>
    split at h
    case h_1 m hm =>
      have hr := Option.some.inj h
      subst hr
      have hnum : numericYears s ≠ [] := by
        intro hz
        rw [hz] at hm
        cases hm
      obtain ⟨m2, hm2, hmem, _⟩ := pyMinAbs_spec target (numericYears s) hnum
      rw [hm] at hm2
      have hmm : m = m2 := Option.some.inj hm2
      subst hmm
      have hmy := int_mem_indexYears hmem
      have hlt : (indexYears s).indexOf (.int m) < (indexYears s).length :=
        List.indexOf_lt_length.mpr hmy
      have hpos : (indexYears s).indexOf (.int m) < s.rows.length := by
        rw [hlen, ← hlen2]
        exact hlt
      refine ⟨rowAt s ((indexYears s).indexOf (.int m)), ?_, rfl⟩
      unfold rowAt
      rw [List.getD_eq_getElem _ _ hpos]
      exact List.getElem_mem hpos
    case h_2 =>
      split at h
      case h_1 row hrow =>
        have hr := Option.some.inj h
        subst hr
        refine ⟨row, ?_, rfl⟩
        rw [List.getLast?_eq_getElem?] at hrow
        exact List.getElem?_mem hrow
      case h_2 => cases h

/-- C6: whenever an indicator is successfully collected, its three
snapshot views (current year, 10-year median, 2019) carry exactly the
holdings-derived country-code universe as their keys — also when the 2019
lookup fails and the all-absent substitute series is used — with missing
data represented as absent values. -/
theorem collectVar_shares_universe (s : Series) (embi : List String) (cy : Int)
    (hlen : s.rows.length = s.index.length)
    (t : Triple) (h : collectVar s embi cy = some t) :
    (t.1.map Prod.fst).Perm embi ∧ (t.2.1.map Prod.fst).Perm embi ∧
      (t.2.2.map Prod.fst).Perm embi := by
  simp only [collectVar] at h
  split at h
  case h_1 => cases h
  case h_2 sd hsd =>
    unfold selectCountries at hsd
    split at hsd
    case isTrue hall =>
      have hsd2 := Option.some.inj hsd
      subst hsd2
      split at h
      case h_1 => cases h
      case h_2 cur hcur =>
        have ht := Option.some.inj h
        subst ht
        refine ⟨?_, ?_, ?_⟩
        · obtain ⟨row, hrowmem, hval⟩ :=
            get_year_data_values_shape _ cy cur (by simpa using hlen) hcur
          rw [hval]
          apply zip_keys_of_length
          obtain ⟨row0, _, hrow0⟩ := List.mem_map.mp hrowmem
          rw [← hrow0, List.length_map]
        · exact median_10yr_keys _ cy
        · split
          case h_1 r2 hr2 =>
            obtain ⟨row, hrowmem, hval⟩ :=
              get_year_data_values_shape _ 2019 r2 (by simpa using hlen) hr2
            rw [hval]
            apply zip_keys_of_length
            obtain ⟨row0, _, hrow0⟩ := List.mem_map.mp hrowmem
            rw [← hrow0, List.length_map]
          case h_2 => exact fallback2019_keys embi
    case isFalse => cases hsd

/-- Witness for C6 on the sample series: all three views are keyed by
exactly the two holdings codes. -/
theorem collectVar_shares_universe_witness :
    List.Perm
      ((([("BRA", (some 5 : Option ℚ)), ("CHN", some 6)],
        [("BRA", (some 3 : Option ℚ)), ("CHN", some 4)],
        [("BRA", (some 3 : Option ℚ)), ("CHN", some 4)]) : Triple).1.map Prod.fst)
      ["BRA", "CHN"] ∧
    List.Perm
      ((([("BRA", (some 5 : Option ℚ)), ("CHN", some 6)],
        [("BRA", (some 3 : Option ℚ)), ("CHN", some 4)],
        [("BRA", (some 3 : Option ℚ)), ("CHN", some 4)]) : Triple).2.1.map Prod.fst)
      ["BRA", "CHN"] ∧
    List.Perm
      ((([("BRA", (some 5 : Option ℚ)), ("CHN", some 6)],
        [("BRA", (some 3 : Option ℚ)), ("CHN", some 4)],
        [("BRA", (some 3 : Option ℚ)), ("CHN", some 4)]) : Triple).2.2.map Prod.fst)
      ["BRA", "CHN"] :=
  collectVar_shares_universe sampleSeries ["BRA", "CHN"] 2025 rfl
    ([("BRA", some 5), ("CHN", some 6)],
     [("BRA", some 3), ("CHN", some 4)],
     [("BRA", some 3), ("CHN", some 4)]) (by decide)

theorem collect_loop_mem {vars : List String} {fetch : String → Option Series}
    {embi : List String} {cy : Int} {p : String × Option Triple}
    (hp : p ∈ collect_loop vars fetch embi cy) :
    p.1 ∈ vars ∧ p.2 = (fetch p.1).bind (fun s => collectVar s embi cy) := by
  unfold collect_loop at hp
  obtain ⟨v, hv, he⟩ := List.mem_map.mp hp
  rw [← he]
  exact ⟨hv, rfl⟩

/-- C8: an indicator whose extraction or resolution fails does not abort
the loop: it is absent from all three cleaned dictionaries (hence from
the assembled dataframes and every country record), while every indicator
whose collection succeeds still appears in all three with its views. -/
theorem failing_indicator_excluded (vars : List String) (fetch : String → Option Series)
    (embi : List String) (cy : Int) (v : String)
    (hv : v ∈ vars)
    (hfail : (fetch v).bind (fun s => collectVar s embi cy) = none) :
    (v ∉ (clean_current_data (collect_loop vars fetch embi cy)).map Prod.fst ∧
     v ∉ (clean_median_data (collect_loop vars fetch embi cy)).map Prod.fst ∧
     v ∉ (clean_2019_data (collect_loop vars fetch embi cy)).map Prod.fst) ∧
    ∀ v2 ∈ vars, ∀ t : Triple,
      (fetch v2).bind (fun s => collectVar s embi cy) = some t →
      (v2, t.1) ∈ clean_current_data (collect_loop vars fetch embi cy) ∧
      (v2, t.2.1) ∈ clean_median_data (collect_loop vars fetch embi cy) ∧
      (v2, t.2.2) ∈ clean_2019_data (collect_loop vars fetch embi cy) := by
  constructor
  · refine ⟨?_, ?_, ?_⟩
    · intro hmem
      obtain ⟨q, hq, hq1⟩ := List.mem_map.mp hmem
      obtain ⟨p, hp, hpq⟩ := List.mem_filterMap.mp hq
      obtain ⟨hp1, hp2⟩ := collect_loop_mem hp
      cases hp2v : p.2 with
      | none =>
          rw [hp2v] at hpq
          cases hpq
      | some tr =>
          rw [hp2v] at hpq
          have hq2 := Option.some.inj hpq
          have hpv : p.1 = v := by
            rw [← hq1, ← hq2]
          rw [hpv, hfail] at hp2
          rw [hp2v] at hp2
          cases hp2
    · intro hmem
      obtain ⟨q, hq, hq1⟩ := List.mem_map.mp hmem
      obtain ⟨p, hp, hpq⟩ := List.mem_filterMap.mp hq
      obtain ⟨hp1, hp2⟩ := collect_loop_mem hp
      cases hp2v : p.2 with
      | none =>
          rw [hp2v] at hpq
          cases hpq
      | some tr =>
          rw [hp2v] at hpq
          have hq2 := Option.some.inj hpq
          have hpv : p.1 = v := by
            rw [← hq1, ← hq2]
          rw [hpv, hfail] at hp2
          rw [hp2v] at hp2
          cases hp2
    · intro hmem
      obtain ⟨q, hq, hq1⟩ := List.mem_map.mp hmem
      obtain ⟨p, hp, hpq⟩ := List.mem_filterMap.mp hq
      obtain ⟨hp1, hp2⟩ := collect_loop_mem hp
      cases hp2v : p.2 with
      | none =>
          rw [hp2v] at hpq
          cases hpq
      | some tr =>
          rw [hp2v] at hpq
          have hq2 := Option.some.inj hpq
          have hpv : p.1 = v := by
            rw [← hq1, ← hq2]
          rw [hpv, hfail] at hp2
          rw [hp2v] at hp2
          cases hp2
  · intro v2 hv2 t2 hstep
    have hmem : (v2, some t2) ∈ collect_loop vars fetch embi cy := by
      unfold collect_loop
      apply List.mem_map.mpr
      refine ⟨v2, hv2, ?_⟩
      rw [hstep]
    exact ⟨List.mem_filterMap.mpr ⟨(v2, some t2), hmem, rfl⟩,
      List.mem_filterMap.mpr ⟨(v2, some t2), hmem, rfl⟩,
      List.mem_filterMap.mpr ⟨(v2, some t2), hmem, rfl⟩⟩

/-- Witness for C8: with only `NGDPD` fetchable, `LP` fails and is
excluded from all three cleaned dictionaries while `NGDPD` survives. -/
theorem failing_indicator_excluded_witness :
    ("LP" ∉ (clean_current_data
        (collect_loop ["NGDPD", "LP"] sampleFetch ["BRA", "CHN"] 2025)).map Prod.fst ∧
      "LP" ∉ (clean_median_data
        (collect_loop ["NGDPD", "LP"] sampleFetch ["BRA", "CHN"] 2025)).map Prod.fst ∧
      "LP" ∉ (clean_2019_data
        (collect_loop ["NGDPD", "LP"] sampleFetch ["BRA", "CHN"] 2025)).map Prod.fst) ∧
    ∀ v2 ∈ ["NGDPD", "LP"], ∀ t : Triple,
      (sampleFetch v2).bind (fun s => collectVar s ["BRA", "CHN"] 2025) = some t →
      (v2, t.1) ∈ clean_current_data
        (collect_loop ["NGDPD", "LP"] sampleFetch ["BRA", "CHN"] 2025) ∧
      (v2, t.2.1) ∈ clean_median_data
        (collect_loop ["NGDPD", "LP"] sampleFetch ["BRA", "CHN"] 2025) ∧
      (v2, t.2.2) ∈ clean_2019_data
        (collect_loop ["NGDPD", "LP"] sampleFetch ["BRA", "CHN"] 2025) :=
  failing_indicator_excluded ["NGDPD", "LP"] sampleFetch ["BRA", "CHN"] 2025 "LP"
    (by decide) (by decide)

/-- C7: country resolution maps each holdings name through the static
table and keeps only names present in it — the output is exactly the
codes of the mapped names, names absent from the table contribute
nothing, and no error is raised. -/
theorem embi_countries_eq_filterMap (cs : List String) :
    embi_countries cs = cs.filterMap (fun c => country_mapping.lookup c) := by
  induction cs with
  | nil => rfl
  | cons c cs ih =>
      cases h : country_mapping.lookup c with
      | none =>
          simp only [embi_countries, List.filter_cons, h, Option.isSome_none,
            Bool.false_eq_true, if_false, List.filterMap_cons, Option.isSome]
          exact ih
      | some code =>
          simp only [embi_countries, List.filter_cons, h, Option.isSome_some, if_true,
            List.map_cons, Option.getD_some, List.filterMap_cons, Option.isSome]
          exact congrArg (code :: ·) ih

/-- C9: the static name → code table is injective — any two entries with
distinct name keys carry distinct three-letter codes. -/
theorem country_mapping_codes_injective :
    List.Pairwise (fun p q : String × String => p.1 ≠ q.1 → p.2 ≠ q.2) country_mapping := by
  decide

end WEOEmbi
